import Mathlib

/-!
Verification of the open-lovable backend (src/index.js): a CRUD server over
two Postgres tables, `projects` and `files`, plus a zip-export route.

The embedding models the database as explicit lists of rows and each Express
route handler as a pure function from a database state (plus the generated
ids and the clock) to a new state and an HTTP-level result.  JavaScript
request-body fields are modelled by `JsVal`, distinguishing `undefined`,
`null` and strings, because the handlers distinguish them (`!x` truthiness
versus `=== undefined`).
-/

namespace OpenLovable

/-- A JavaScript value appearing in a JSON request-body field: absent
(`undefined`), `null`, or a string. -/
inductive JsVal where
  | undef : JsVal
  | null : JsVal
  | str : String → JsVal
deriving Repr, DecidableEq

/-- JavaScript truthiness test `!v` for the values we model:
`undefined`, `null` and the empty string are falsy. -/
def JsVal.isFalsy : JsVal → Bool
  | .undef => true
  | .null => true
  | .str s => s.isEmpty

/-- A row of the `projects` table:
`id UUID PRIMARY KEY, name TEXT NOT NULL, created_at TIMESTAMP DEFAULT NOW()`. -/
structure ProjectRow where
  id : String
  name : String
  created_at : Nat
deriving Repr, DecidableEq

/-- A row of the `files` table: `id UUID PRIMARY KEY, project_id UUID
REFERENCES projects(id) ON DELETE CASCADE, path TEXT NOT NULL,
content TEXT NOT NULL, created_at TIMESTAMP DEFAULT NOW()`. -/
structure FileRow where
  id : String
  project_id : String
  path : String
  content : String
  created_at : Nat
deriving Repr, DecidableEq

/-- The database state: the two tables, each as a list of rows in
physical (insertion) order. -/
structure DB where
  projects : List ProjectRow
  files : List FileRow
deriving Repr, DecidableEq

/-- The foreign-key invariant of the schema: every file's `project_id`
references an existing project row. -/
def refIntegrityOk (db : DB) : Bool :=
  db.files.all (fun f => db.projects.any (fun p => p.id == f.project_id))

/-- Outcome of `POST /projects`. -/
inductive CreateProjectResult where
  | badRequest : String → CreateProjectResult
  | ok : String → String → CreateProjectResult
deriving Repr, DecidableEq

/-- `POST /projects` (src/index.js lines 78–89): reject a falsy `name` with
400 `{error:"Name required"}`; otherwise insert `(uuidv4(), name)` into
`projects` (`created_at` defaults to `NOW()`) and answer `{id, name}`. -/
def createProject (db : DB) (newId : String) (now : Nat) (name : JsVal) :
    DB × CreateProjectResult :=
  match name with
  | .str s =>
    if s.isEmpty then (db, .badRequest "Name required")
    else
      ({ db with projects := db.projects ++ [⟨newId, s, now⟩] },
       .ok newId s)
  | _ => (db, .badRequest "Name required")

/-- One element of the JSON array answered by
`GET /projects/:projectId/files`: the query selects `id, path, content`. -/
structure FileListItem where
  id : String
  path : String
  content : String
deriving Repr, DecidableEq

/-- `GET /projects/:projectId/files` (src/index.js lines 102–108): the query
`SELECT id, path, content FROM files WHERE project_id = $1` carries no
`ORDER BY`, so the rows come back in the table's physical order. -/
def listFiles (db : DB) (projectId : String) : List FileListItem :=
  (db.files.filter (fun f => f.project_id == projectId)).map
    (fun f => ⟨f.id, f.path, f.content⟩)

/-- Insertion of one row into a list sorted by `created_at`. -/
def insertByCreatedAt (f : FileRow) : List FileRow → List FileRow
  | [] => [f]
  | g :: gs =>
    if f.created_at ≤ g.created_at then f :: g :: gs
    else g :: insertByCreatedAt f gs

/-- Sort file rows by `created_at` ascending (insertion sort). -/
def sortByCreatedAt : List FileRow → List FileRow
  | [] => []
  | f :: fs => insertByCreatedAt f (sortByCreatedAt fs)

/-- The listing the spec's words describe: the project's file rows ordered by
`created_at` ascending (oldest first).  Written from the spec sentence, to be
compared with `listFiles`, which embeds the actual query. -/
def listFilesSpecOrdered (db : DB) (projectId : String) : List FileListItem :=
  (sortByCreatedAt (db.files.filter (fun f => f.project_id == projectId))).map
    (fun f => ⟨f.id, f.path, f.content⟩)

/-- Outcome of `POST /projects/:projectId/files/new`. -/
inductive NewFileResult where
  | badRequest : String → NewFileResult
  | refIntegrityError : NewFileResult
  | ok : String → String → String → NewFileResult
deriving Repr, DecidableEq

/-- The JSON request body of `POST /projects/:projectId/files/new`.  The
handler destructures only `path` (`const { path } = req.body`); the `content`
field is carried here so that its irrelevance can be stated. -/
structure NewFileBody where
  path : JsVal
  content : JsVal
deriving Repr, DecidableEq

/-- `POST /projects/:projectId/files/new` (src/index.js lines 110–122):
reject a falsy `path` with 400 `{error:"Path required"}`; otherwise insert
`(uuidv4(), projectId, path, '')` into `files` — the SQL literal `''` is the
content, whatever the request body carried — and answer
`{id, path, content: ""}`.  An unknown `projectId` violates the foreign key,
a store-level error. -/
def createFileNew (db : DB) (projectId : String) (newId : String) (now : Nat)
    (body : NewFileBody) : DB × NewFileResult :=
  match body.path with
  | .str p =>
    if p.isEmpty then (db, .badRequest "Path required")
    else if db.projects.any (fun pr => pr.id == projectId) then
      ({ db with files := db.files ++ [⟨newId, projectId, p, "", now⟩] },
       .ok newId p "")
    else (db, .refIntegrityError)
  | _ => (db, .badRequest "Path required")

/-- Outcome of the row-mutating file routes (`PATCH`, `DELETE`). -/
inductive MutateResult where
  | validationError : String → MutateResult
  | storeError : MutateResult
  | success : MutateResult
deriving Repr, DecidableEq

/-- `PATCH /files/:id` (src/index.js lines 124–134): reject only
`content === undefined` with 400 `{error:"Content required"}`; otherwise run
`UPDATE files SET content = $1 WHERE id = $2`.  A `null` content that matches
a row violates the `content TEXT NOT NULL` column constraint, a store-level
error that leaves the row unchanged; a `null` matching no row updates
nothing and succeeds.  Any string (the empty string included) is written
through, and the handler answers `{success:true}` whether or not a row
matched. -/
def updateFileContent (db : DB) (fileId : String) (content : JsVal) :
    DB × MutateResult :=
  match content with
  | .undef => (db, .validationError "Content required")
  | .null =>
    if db.files.any (fun f => f.id == fileId) then (db, .storeError)
    else (db, .success)
  | .str s =>
    let upd := fun f : FileRow =>
      if f.id == fileId then { f with content := s } else f
    ({ db with files := db.files.map upd }, .success)

/-- `DELETE /files/:id` (src/index.js lines 136–139): run
`DELETE FROM files WHERE id = $1` and answer `{success:true}`
unconditionally. -/
def deleteFile (db : DB) (fileId : String) : DB × MutateResult :=
  ({ db with files := db.files.filter (fun f => ¬ f.id == fileId) },
   .success)

/-- One entry of the streamed zip archive: `archive.append(f.content,
{ name: f.path })`. -/
structure ZipEntry where
  name : String
  data : String
deriving Repr, DecidableEq

/-- `GET /projects/:projectId/download` (src/index.js lines 145–170): fetch
`SELECT path, content FROM files WHERE project_id = $1` and append one zip
entry per row, named by the row's `path`, with the row's `content` as its
bytes.  The archive is the sequence of entries in row order. -/
def exportProjectZip (db : DB) (projectId : String) : List ZipEntry :=
  (db.files.filter (fun f => f.project_id == projectId)).map
    (fun f => ⟨f.path, f.content⟩)

/-- A JSON value in a response body, as far as the modelled routes need. -/
inductive JVal where
  | jBool : Bool → JVal
  | jStr : String → JVal
deriving Repr, DecidableEq

/-- An HTTP response: a status code and a JSON-object body given as an
ordered list of fields. -/
structure HttpResponse where
  status : Nat
  body : List (String × JVal)
deriving Repr, DecidableEq

/-- `GET /db-test`, failure branch (src/index.js lines 44–47): when
`pool.query("SELECT NOW()")` throws, the handler answers
`res.status(500).json({ success: false })` — a body with the single field
`success`. -/
def dbTestFailureResponse : HttpResponse :=
  ⟨500, [("success", .jBool false)]⟩

/-- `GET /db-test`, success branch (src/index.js lines 42–43): answer
`{ success: true, time: r.rows[0] }`. -/
def dbTestSuccessResponse (time : String) : HttpResponse :=
  ⟨200, [("success", .jBool true), ("time", .jStr time)]⟩

/-- Modelled from the spec: the rename route `PATCH /files/:id/rename` is
absent from src/index.js; §4.2 and the §6 table say it fails with
ValidationError (400) if `path` is empty/missing, otherwise overwrites the
file's path and reports `{success:true}`, reporting success even when no row
with that id exists. -/
def renameFile (db : DB) (fileId : String) (path : JsVal) :
    DB × MutateResult :=
  match path with
  | .str p =>
    if p.isEmpty then (db, .validationError "Path required")
    else
      let upd := fun f : FileRow =>
        if f.id == fileId then { f with path := p } else f
      ({ db with files := db.files.map upd }, .success)
  | _ => (db, .validationError "Path required")

/-- One `{path, content}` entry of the bulk-replace request body. -/
structure FileEntry where
  path : JsVal
  content : JsVal
deriving Repr, DecidableEq

/-- Modelled from the spec: one insert of the bulk-replace transaction.  An
entry whose `path` or `content` is not a string is malformed — its insert
fails against the `NOT NULL` text columns; a well-formed entry becomes a
fresh row for `projectId`. -/
def insertEntry (projectId : String) (freshId : String) (now : Nat)
    (e : FileEntry) : Option FileRow :=
  match e.path, e.content with
  | .str p, .str c => some ⟨freshId, projectId, p, c, now⟩
  | _, _ => none

/-- Modelled from the spec: run the inserts of the bulk-replace transaction
in order, the `i`-th entry receiving the freshly generated id `freshId i`;
the first failing insert aborts the whole run. -/
def insertAllEntries (projectId : String) (freshId : Nat → String) (now : Nat) :
    Nat → List FileEntry → Option (List FileRow)
  | _, [] => some []
  | i, e :: rest =>
    match insertEntry projectId (freshId i) now e with
    | none => none
    | some row =>
      match insertAllEntries projectId freshId now (i + 1) rest with
      | none => none
      | some rows => some (row :: rows)

/-- Outcome of the bulk-replace route. -/
inductive ReplaceResult where
  | validationError : String → ReplaceResult
  | txAborted : ReplaceResult
  | success : ReplaceResult
deriving Repr, DecidableEq

/-- Modelled from the spec: the bulk-replace route
`POST /projects/:projectId/files` is absent from src/index.js; §4.2 says
`replaceAllFiles(projectId, files)` fails with ValidationError if `files` is
not a sequence (modelled as `none`), and otherwise runs one atomic
transaction: delete every file row of `projectId`, then insert one fresh row
per entry; if any insert fails the transaction rolls back and the database
is left as it was. -/
def replaceAllFiles (db : DB) (projectId : String) (freshId : Nat → String)
    (now : Nat) (files : Option (List FileEntry)) : DB × ReplaceResult :=
  match files with
  | none => (db, .validationError "Files must be an array")
  | some fs =>
    match insertAllEntries projectId freshId now 0 fs with
    | none => (db, .txAborted)
    | some rows =>
      ({ db with files :=
          db.files.filter (fun f => ¬ f.project_id == projectId) ++ rows },
       .success)

/-! ## Theorems -/

/-- C4: `createProject(name)` fails with ValidationError (HTTP 400) when
`name` is empty or missing and in that case creates no project row; for every
non-empty name it generates a fresh unique id, persists
`{id, name, created_at = now}`, and returns `{id, name}`. -/
theorem claim_C4 (db : DB) (newId : String) (now : Nat) (s : String)
    (v : JsVal) (hv : v.isFalsy = true) (hs : s ≠ "")
    (hfresh : newId ∉ db.projects.map ProjectRow.id)
    (hnodup : (db.projects.map ProjectRow.id).Nodup) :
    createProject db newId now v = (db, .badRequest "Name required") ∧
    createProject db newId now (.str s) =
      ({ db with projects := db.projects ++ [⟨newId, s, now⟩] },
       .ok newId s) ∧
    ((createProject db newId now (.str s)).1.projects.map
        ProjectRow.id).Nodup := by
  have hemp : s.isEmpty = false := by
    cases h : s.isEmpty with
    | true => exact absurd ((String.isEmpty_iff _).mp h) hs
    | false => rfl
  refine ⟨?_, ?_, ?_⟩
  · cases v with
    | undef => rfl
    | null => rfl
    | str t =>
      simp only [JsVal.isFalsy] at hv
      simp [createProject, hv]
  · simp [createProject, hemp]
  · simp only [createProject, hemp, Bool.false_eq_true, if_false]
    simp only [List.map_append, List.map_cons, List.map_nil]
    rw [List.nodup_append]
    exact ⟨hnodup, List.nodup_singleton _, by
      simpa [List.disjoint_singleton] using hfresh⟩

/-- C4 witness: concrete instantiation on an empty database, with missing
name `undefined` and non-empty name `"Demo"`. -/
theorem claim_C4_witness :
    createProject ⟨[], []⟩ "p1" 0 JsVal.undef =
      (⟨[], []⟩, .badRequest "Name required") ∧
    createProject ⟨[], []⟩ "p1" 0 (JsVal.str "Demo") =
      (⟨[⟨"p1", "Demo", 0⟩], []⟩, .ok "p1" "Demo") :=
  ⟨(claim_C4 ⟨[], []⟩ "p1" 0 "Demo" JsVal.undef (by decide) (by decide)
      (by decide) (by decide)).1,
   (claim_C4 ⟨[], []⟩ "p1" 0 "Demo" JsVal.undef (by decide) (by decide)
      (by decide) (by decide)).2.1⟩

/-- C7: `deleteFile(fileId)` is idempotent: it always reports success whether
or not a row with that id exists, a second identical call also reports
success, and the second call leaves the database exactly as the first one
did. -/
theorem claim_C7 (db : DB) (fileId : String) :
    (deleteFile db fileId).2 = .success ∧
    (deleteFile (deleteFile db fileId).1 fileId).2 = .success ∧
    (deleteFile (deleteFile db fileId).1 fileId).1 =
      (deleteFile db fileId).1 := by
  refine ⟨rfl, rfl, ?_⟩
  simp [deleteFile, List.filter_filter]

/-- C8 counterexample: the claim says the db-test failure response carries
both a `success:false` field and an `error` field, but the handler sends
`res.status(500).json({ success: false })` — there is no `error` key in the
body. -/
theorem claim_C8_counterexample :
    dbTestFailureResponse.status = 500 ∧
    ("success", JVal.jBool false) ∈ dbTestFailureResponse.body ∧
    "error" ∉ dbTestFailureResponse.body.map Prod.fst := by
  decide

/-- C8 (amended): when the db-test store query fails, the response is
HTTP 500 with a JSON body whose only field is `success:false`; no `error`
field is included. -/
theorem claim_C8 :
    dbTestFailureResponse.status = 500 ∧
    dbTestFailureResponse.body = [("success", JVal.jBool false)] := by
  decide

/-- C10: the create-single-file endpoint ignores any `content` field of the
request body: two requests differing only in `content` produce identical
results, and on success the stored row's content and the returned content
are both the empty string (on a foreign-key failure nothing is stored). -/
theorem claim_C10 (db : DB) (projectId newId : String) (now : Nat)
    (p : String) (c₁ c₂ : JsVal) (hp : p ≠ "") :
    createFileNew db projectId newId now ⟨.str p, c₁⟩ =
      createFileNew db projectId newId now ⟨.str p, c₂⟩ ∧
    ((createFileNew db projectId newId now ⟨.str p, c₁⟩).2 = .ok newId p "" ∧
       (createFileNew db projectId newId now ⟨.str p, c₁⟩).1.files =
         db.files ++ [⟨newId, projectId, p, "", now⟩] ∨
     (createFileNew db projectId newId now ⟨.str p, c₁⟩).2 =
         .refIntegrityError ∧
       (createFileNew db projectId newId now ⟨.str p, c₁⟩).1 = db) := by
  have hemp : p.isEmpty = false := by
    cases h : p.isEmpty with
    | true => exact absurd ((String.isEmpty_iff _).mp h) hp
    | false => rfl
  constructor
  · rfl
  · by_cases hpr : db.projects.any (fun pr => pr.id == projectId) = true
    · left
      constructor <;> simp [createFileNew, hemp, hpr]
    · right
      constructor <;>
        simp [createFileNew, hemp, Bool.eq_false_iff.mpr hpr]

/-- C10 witness: two concrete requests with different `content` fields give
the same result, and the stored content is empty. -/
theorem claim_C10_witness :
    createFileNew ⟨[⟨"p1", "Demo", 0⟩], []⟩ "p1" "f1" 1
        ⟨JsVal.str "a.txt", JsVal.str "ZZ"⟩ =
      createFileNew ⟨[⟨"p1", "Demo", 0⟩], []⟩ "p1" "f1" 1
        ⟨JsVal.str "a.txt", JsVal.null⟩ :=
  (claim_C10 ⟨[⟨"p1", "Demo", 0⟩], []⟩ "p1" "f1" 1 "a.txt"
    (JsVal.str "ZZ") JsVal.null (by decide)).1

/-- C2 counterexample: the listing query has no `ORDER BY`, so the rows come
back in table order, not by `created_at`.  With two rows of project `p1`
whose physical order disagrees with their `created_at` order (possible in
the store, whose physical row order is not tied to `created_at`), the
route's output differs from the `created_at`-ascending listing the claim
describes. -/
theorem claim_C2_counterexample :
    listFiles
        ⟨[⟨"p1", "Demo", 0⟩],
         [⟨"f1", "p1", "a.txt", "x", 5⟩, ⟨"f2", "p1", "b.txt", "y", 3⟩]⟩
        "p1" ≠
      listFilesSpecOrdered
        ⟨[⟨"p1", "Demo", 0⟩],
         [⟨"f1", "p1", "a.txt", "x", 5⟩, ⟨"f2", "p1", "b.txt", "y", 3⟩]⟩
        "p1" := by
  decide

/-- C2 (amended): `listFiles(projectId)` returns exactly the files belonging
to `projectId`, in the store's row order (the query has no ordering clause),
and returns the empty sequence when the project has no files or — under the
foreign-key invariant — does not exist. -/
theorem claim_C2 (db : DB) (pid : String) :
    (∀ item, item ∈ listFiles db pid ↔
       ∃ f, f ∈ db.files ∧ f.project_id = pid ∧
         item = ⟨f.id, f.path, f.content⟩) ∧
    ((∀ f ∈ db.files, f.project_id ≠ pid) → listFiles db pid = []) ∧
    (refIntegrityOk db = true → (∀ p ∈ db.projects, p.id ≠ pid) →
       listFiles db pid = []) := by
  refine ⟨?_, ?_, ?_⟩
  · intro item
    simp only [listFiles, List.mem_map, List.mem_filter, beq_iff_eq]
    constructor
    · rintro ⟨f, ⟨hf, hpid⟩, rfl⟩
      exact ⟨f, hf, hpid, rfl⟩
    · rintro ⟨f, hf, hpid, rfl⟩
      exact ⟨f, ⟨hf, hpid⟩, rfl⟩
  · intro h
    simp only [listFiles, List.map_eq_nil_iff, List.filter_eq_nil_iff]
    intro f hf
    simpa using h f hf
  · intro hint hnone
    simp only [refIntegrityOk, List.all_eq_true] at hint
    simp only [listFiles, List.map_eq_nil_iff, List.filter_eq_nil_iff]
    intro f hf
    obtain ⟨p, hp, hpe⟩ := by simpa [List.any_eq_true] using hint f hf
    simp only [beq_iff_eq]
    intro hfp
    exact hnone p hp (hfp ▸ hpe)

/-- C2 witness: on a concrete database the listing of an absent project is
empty. -/
theorem claim_C2_witness :
    listFiles ⟨[⟨"p1", "Demo", 0⟩], [⟨"f1", "p1", "a.txt", "x", 5⟩]⟩
        "p2" = [] :=
  (claim_C2 ⟨[⟨"p1", "Demo", 0⟩], [⟨"f1", "p1", "a.txt", "x", 5⟩]⟩
      "p2").2.2 (by decide) (by decide)

/-- C3: the zip export contains exactly one entry per file row of the
project — the entries are in one-to-one correspondence with the rows the
file-listing route sees — each named by the row's `path` verbatim with the
row's `content` as its bytes, and under the foreign-key invariant an unknown
`projectId` yields an empty archive rather than an error. -/
theorem claim_C3 (db : DB) (pid : String) :
    exportProjectZip db pid =
      (listFiles db pid).map (fun it => ZipEntry.mk it.path it.content) ∧
    (∀ e ∈ exportProjectZip db pid,
       ∃ f, f ∈ db.files ∧ f.project_id = pid ∧
         e = ⟨f.path, f.content⟩) ∧
    (∀ f ∈ db.files, f.project_id = pid →
       ZipEntry.mk f.path f.content ∈ exportProjectZip db pid) ∧
    (refIntegrityOk db = true → (∀ p ∈ db.projects, p.id ≠ pid) →
       exportProjectZip db pid = []) := by
  refine ⟨?_, ?_, ?_, ?_⟩
  · simp [exportProjectZip, listFiles, List.map_map]
  · intro e he
    simp only [exportProjectZip, List.mem_map, List.mem_filter,
      beq_iff_eq] at he
    obtain ⟨f, ⟨hf, hpid⟩, rfl⟩ := he
    exact ⟨f, hf, hpid, rfl⟩
  · intro f hf hpid
    simp only [exportProjectZip, List.mem_map, List.mem_filter, beq_iff_eq]
    exact ⟨f, ⟨hf, hpid⟩, rfl⟩
  · intro hint hnone
    have h2 := (claim_C2 db pid).2.2 hint hnone
    simp only [listFiles, List.map_eq_nil_iff] at h2
    simp [exportProjectZip, h2]

/-- C3 witness: on a concrete database the export of an unknown project is
the empty archive, and the single row of project `p1` yields its entry. -/
theorem claim_C3_witness :
    exportProjectZip ⟨[⟨"p1", "Demo", 0⟩], [⟨"f1", "p1", "a.txt", "x", 5⟩]⟩
        "p2" = [] ∧
    ZipEntry.mk "a.txt" "x" ∈
      exportProjectZip
        ⟨[⟨"p1", "Demo", 0⟩], [⟨"f1", "p1", "a.txt", "x", 5⟩]⟩ "p1" :=
  ⟨(claim_C3 ⟨[⟨"p1", "Demo", 0⟩], [⟨"f1", "p1", "a.txt", "x", 5⟩]⟩
      "p2").2.2.2 (by decide) (by decide),
   (claim_C3 ⟨[⟨"p1", "Demo", 0⟩], [⟨"f1", "p1", "a.txt", "x", 5⟩]⟩
      "p1").2.2.1 ⟨"f1", "p1", "a.txt", "x", 5⟩ (by decide) rfl⟩

/-- C5: the content-update route fails with ValidationError exactly when the
`content` field is absent (`undefined`), in which case nothing changes; the
empty string is a valid content value, and after updating a file's content
to `""` the listing of its project shows empty content for that file. -/
theorem claim_C5 (db : DB) (fileId : String) :
    (∀ c, (updateFileContent db fileId c).2 =
        .validationError "Content required" ↔ c = .undef) ∧
    (updateFileContent db fileId .undef).1 = db ∧
    (updateFileContent db fileId (.str "")).2 = .success ∧
    (∀ f ∈ db.files, f.id = fileId →
       FileListItem.mk fileId f.path "" ∈
         listFiles (updateFileContent db fileId (.str "")).1
           f.project_id) := by
  refine ⟨?_, rfl, rfl, ?_⟩
  · intro c
    constructor
    · intro h
      cases c with
      | undef => rfl
      | null =>
        by_cases hx : db.files.any (fun f => f.id == fileId) = true <;>
          simp [updateFileContent, hx] at h
      | str s => simp [updateFileContent] at h
    · rintro rfl
      rfl
  · intro f hf hid
    have hupd : (fun g : FileRow =>
        if g.id == fileId then { g with content := "" } else g) f =
        { f with content := "" } := by simp [hid]
    simp only [updateFileContent, listFiles, List.mem_map, List.mem_filter]
    exact ⟨{ f with content := "" }, ⟨⟨f, hf, hupd⟩, by simp⟩, by simp [hid]⟩

/-- C5 witness: concrete run — updating a file's content to the empty string
succeeds, and the listing afterwards shows empty content; an absent content
field is rejected. -/
theorem claim_C5_witness :
    (updateFileContent
        ⟨[⟨"p1", "Demo", 0⟩], [⟨"f1", "p1", "a.txt", "hello", 1⟩]⟩
        "f1" (.str "")).2 = .success ∧
    FileListItem.mk "f1" "a.txt" "" ∈
      listFiles
        (updateFileContent
          ⟨[⟨"p1", "Demo", 0⟩], [⟨"f1", "p1", "a.txt", "hello", 1⟩]⟩
          "f1" (.str "")).1 "p1" :=
  ⟨(claim_C5 ⟨[⟨"p1", "Demo", 0⟩], [⟨"f1", "p1", "a.txt", "hello", 1⟩]⟩
      "f1").2.2.1,
   (claim_C5 ⟨[⟨"p1", "Demo", 0⟩], [⟨"f1", "p1", "a.txt", "hello", 1⟩]⟩
      "f1").2.2.2 ⟨"f1", "p1", "a.txt", "hello", 1⟩ (by decide) rfl⟩

/-- C9: calling the content-update route with `content` explicitly `null`
passes the `=== undefined` validation check, and the attempted write of NULL
into the `NOT NULL` content column of an existing row is a store-level
error, not a ValidationError; the row is left unchanged. -/
theorem claim_C9 (db : DB) (fileId : String)
    (hex : db.files.any (fun f => f.id == fileId) = true) :
    (updateFileContent db fileId .null).2 = .storeError ∧
    (updateFileContent db fileId .null).1 = db ∧
    (updateFileContent db fileId .null).2 ≠
      .validationError "Content required" := by
  refine ⟨?_, ?_, ?_⟩ <;> simp [updateFileContent, hex]

/-- C9 witness: concrete run — a `null` content on an existing file id gives
a store error and leaves the database unchanged. -/
theorem claim_C9_witness :
    (updateFileContent
        ⟨[⟨"p1", "Demo", 0⟩], [⟨"f1", "p1", "a.txt", "x", 1⟩]⟩
        "f1" .null).2 = .storeError ∧
    (updateFileContent
        ⟨[⟨"p1", "Demo", 0⟩], [⟨"f1", "p1", "a.txt", "x", 1⟩]⟩
        "f1" .null).1 =
      ⟨[⟨"p1", "Demo", 0⟩], [⟨"f1", "p1", "a.txt", "x", 1⟩]⟩ :=
  ⟨(claim_C9 ⟨[⟨"p1", "Demo", 0⟩], [⟨"f1", "p1", "a.txt", "x", 1⟩]⟩
      "f1" (by decide)).1,
   (claim_C9 ⟨[⟨"p1", "Demo", 0⟩], [⟨"f1", "p1", "a.txt", "x", 1⟩]⟩
      "f1" (by decide)).2.1⟩

/-- C6: the rename route fails with ValidationError (400) when `path` is
empty or missing and then changes nothing; for any non-empty path it
overwrites the path of the row with the given id — the row persists with the
new path, all its other columns unchanged, and the listing of its project
shows the new path — and reports success, reporting success without changing
anything even when no row has that id. -/
theorem claim_C6 (db : DB) (fileId : String) (p : String) (v : JsVal) :
    (v.isFalsy = true →
       renameFile db fileId v = (db, .validationError "Path required")) ∧
    (p ≠ "" → (renameFile db fileId (.str p)).2 = .success) ∧
    (p ≠ "" → ∀ f ∈ db.files, f.id = fileId →
       ({ f with path := p } : FileRow) ∈
         (renameFile db fileId (.str p)).1.files) ∧
    (p ≠ "" → ∀ f ∈ db.files, f.id = fileId →
       FileListItem.mk fileId p f.content ∈
         listFiles (renameFile db fileId (.str p)).1 f.project_id) ∧
    (p ≠ "" → (∀ f ∈ db.files, f.id ≠ fileId) →
       renameFile db fileId (.str p) = (db, .success)) := by
  refine ⟨?_, ?_, ?_, ?_, ?_⟩
  · intro hv
    cases v with
    | undef => rfl
    | null => rfl
    | str t =>
      simp only [JsVal.isFalsy] at hv
      simp [renameFile, hv]
  · intro hp
    have hemp : p.isEmpty = false := by
      cases h : p.isEmpty with
      | true => exact absurd ((String.isEmpty_iff _).mp h) hp
      | false => rfl
    simp [renameFile, hemp]
  · intro hp f hf hid
    have hemp : p.isEmpty = false := by
      cases h : p.isEmpty with
      | true => exact absurd ((String.isEmpty_iff _).mp h) hp
      | false => rfl
    have hupd : (fun g : FileRow =>
        if g.id == fileId then { g with path := p } else g) f =
        { f with path := p } := by simp [hid]
    simp only [renameFile, hemp, Bool.false_eq_true, if_false]
    exact hupd ▸ List.mem_map_of_mem _ hf
  · intro hp f hf hid
    have hemp : p.isEmpty = false := by
      cases h : p.isEmpty with
      | true => exact absurd ((String.isEmpty_iff _).mp h) hp
      | false => rfl
    have hupd : (fun g : FileRow =>
        if g.id == fileId then { g with path := p } else g) f =
        { f with path := p } := by simp [hid]
    simp only [renameFile, hemp, Bool.false_eq_true, if_false, listFiles,
      List.mem_map, List.mem_filter]
    exact ⟨{ f with path := p }, ⟨⟨f, hf, hupd⟩, by simp⟩, by simp [hid]⟩
  · intro hp hnone
    have hemp : p.isEmpty = false := by
      cases h : p.isEmpty with
      | true => exact absurd ((String.isEmpty_iff _).mp h) hp
      | false => rfl
    have h1 : ∀ f ∈ db.files,
        (if f.id == fileId then { f with path := p } else f) = id f := by
      intro f hf
      simp [hnone f hf]
    have hmap : db.files.map (fun f : FileRow =>
        if f.id == fileId then { f with path := p } else f) = db.files := by
      rw [List.map_congr_left h1, List.map_id]
    simp only [renameFile, hemp, Bool.false_eq_true, if_false, hmap]

/-- C6 witness: concrete runs — renaming an existing file overwrites its
path, the renamed row and the renamed listing entry both appearing
afterwards; renaming an id that matches no row reports success and leaves
the (empty) database unchanged; a missing path is rejected. -/
theorem claim_C6_witness :
    renameFile ⟨[], []⟩ "f9" JsVal.undef =
      (⟨[], []⟩, .validationError "Path required") ∧
    renameFile ⟨[], []⟩ "f9" (JsVal.str "b.txt") = (⟨[], []⟩, .success) ∧
    FileRow.mk "f1" "p1" "b.txt" "x" 1 ∈
      (renameFile ⟨[⟨"p1", "Demo", 0⟩], [⟨"f1", "p1", "a.txt", "x", 1⟩]⟩
        "f1" (JsVal.str "b.txt")).1.files ∧
    FileListItem.mk "f1" "b.txt" "x" ∈
      listFiles
        (renameFile ⟨[⟨"p1", "Demo", 0⟩], [⟨"f1", "p1", "a.txt", "x", 1⟩]⟩
          "f1" (JsVal.str "b.txt")).1 "p1" :=
  ⟨(claim_C6 ⟨[], []⟩ "f9" "b.txt" JsVal.undef).1 (by decide),
   (claim_C6 ⟨[], []⟩ "f9" "b.txt" JsVal.undef).2.2.2.2 (by decide)
     (by decide),
   (claim_C6 ⟨[⟨"p1", "Demo", 0⟩], [⟨"f1", "p1", "a.txt", "x", 1⟩]⟩
       "f1" "b.txt" JsVal.undef).2.2.1 (by decide)
     ⟨"f1", "p1", "a.txt", "x", 1⟩ (by decide) rfl,
   (claim_C6 ⟨[⟨"p1", "Demo", 0⟩], [⟨"f1", "p1", "a.txt", "x", 1⟩]⟩
       "f1" "b.txt" JsVal.undef).2.2.2.1 (by decide)
     ⟨"f1", "p1", "a.txt", "x", 1⟩ (by decide) rfl⟩

/-- The run of inserts of the bulk-replace transaction, when it succeeds,
produces exactly one row per entry: the `j`-th row is the `j`-th entry's
row, carrying the freshly generated id of index `i + j`. -/
theorem insertAllEntries_sound (pid : String) (g : Nat → String) (now : Nat) :
    ∀ (fs : List FileEntry) (i : Nat) (rows : List FileRow),
      insertAllEntries pid g now i fs = some rows →
      rows.length = fs.length ∧
      ∀ j (hj : j < fs.length) (hr : j < rows.length),
        insertEntry pid (g (i + j)) now (fs.get ⟨j, hj⟩) =
          some (rows.get ⟨j, hr⟩) := by
  intro fs
  induction fs with
  | nil =>
    intro i rows h
    simp only [insertAllEntries] at h
    cases h
    exact ⟨rfl, fun j hj => absurd hj (Nat.not_lt_zero j)⟩
  | cons e rest ih =>
    intro i rows h
    simp only [insertAllEntries] at h
    cases he : insertEntry pid (g i) now e with
    | none => rw [he] at h; cases h
    | some row =>
      rw [he] at h
      cases hr : insertAllEntries pid g now (i + 1) rest with
      | none => rw [hr] at h; cases h
      | some rs =>
        rw [hr] at h
        cases h
        obtain ⟨hlen, hget⟩ := ih (i + 1) rs hr
        refine ⟨by simpa using hlen, ?_⟩
        intro j hj hrj
        cases j with
        | zero => simpa using he
        | succ k =>
          have hk : k < rest.length := Nat.lt_of_succ_lt_succ hj
          have hrk : k < rs.length := Nat.lt_of_succ_lt_succ hrj
          have := hget k hk hrk
          have harg : i + (k + 1) = i + 1 + k := by omega
          rw [harg]
          simpa using this

/-- C1: the bulk replace runs as one atomic transaction: on success every
pre-existing file row of the project is deleted and exactly one fresh row is
inserted per entry of `files` (other projects' rows untouched), and whenever
the outcome is not success — validation failure or a failing insert — the
database afterwards equals the database before (full rollback, no partial
replacement). -/
theorem claim_C1 (db : DB) (pid : String) (g : Nat → String) (now : Nat)
    (files : Option (List FileEntry)) :
    ((replaceAllFiles db pid g now files).2 ≠ .success →
       (replaceAllFiles db pid g now files).1 = db) ∧
    (∀ fs rows, files = some fs →
       insertAllEntries pid g now 0 fs = some rows →
       (replaceAllFiles db pid g now files).2 = .success ∧
       (replaceAllFiles db pid g now files).1.files =
         db.files.filter (fun f => ¬ f.project_id == pid) ++ rows ∧
       (replaceAllFiles db pid g now files).1.projects = db.projects ∧
       rows.length = fs.length ∧
       ∀ j (hj : j < fs.length) (hr : j < rows.length),
         insertEntry pid (g j) now (fs.get ⟨j, hj⟩) =
           some (rows.get ⟨j, hr⟩)) ∧
    (∀ fs, files = some fs → insertAllEntries pid g now 0 fs = none →
       replaceAllFiles db pid g now files = (db, .txAborted)) := by
  refine ⟨?_, ?_, ?_⟩
  · intro hne
    cases files with
    | none => rfl
    | some fs =>
      cases h : insertAllEntries pid g now 0 fs with
      | none => simp [replaceAllFiles, h]
      | some rows => exact absurd (by simp [replaceAllFiles, h]) hne
  · rintro fs rows rfl hins
    obtain ⟨hlen, hget⟩ := insertAllEntries_sound pid g now fs 0 rows hins
    refine ⟨by simp [replaceAllFiles, hins], by simp [replaceAllFiles, hins],
      by simp [replaceAllFiles, hins], hlen, ?_⟩
    intro j hj hr
    simpa using hget j hj hr
  · rintro fs rfl hins
    simp [replaceAllFiles, hins]

/-- C1 witness: concrete runs — a well-formed entry list replaces the
project's single old file by the new rows, and a malformed entry (null
content) rolls the whole transaction back, leaving the database exactly as
before. -/
theorem claim_C1_witness :
    (replaceAllFiles
        ⟨[⟨"p1", "Demo", 0⟩], [⟨"f1", "p1", "old.txt", "o", 1⟩]⟩
        "p1" (fun i => String.append "n" (toString i)) 7
        (some [⟨JsVal.str "x.py", JsVal.str "1"⟩])).2 = .success ∧
    replaceAllFiles
        ⟨[⟨"p1", "Demo", 0⟩], [⟨"f1", "p1", "old.txt", "o", 1⟩]⟩
        "p1" (fun i => String.append "n" (toString i)) 7
        (some [⟨JsVal.str "x.py", JsVal.null⟩]) =
      (⟨[⟨"p1", "Demo", 0⟩], [⟨"f1", "p1", "old.txt", "o", 1⟩]⟩,
       .txAborted) :=
  ⟨((claim_C1 ⟨[⟨"p1", "Demo", 0⟩], [⟨"f1", "p1", "old.txt", "o", 1⟩]⟩
        "p1" (fun i => String.append "n" (toString i)) 7
        (some [⟨JsVal.str "x.py", JsVal.str "1"⟩])).2.1
      [⟨JsVal.str "x.py", JsVal.str "1"⟩]
      [⟨"n0", "p1", "x.py", "1", 7⟩] rfl (by decide)).1,
   by
    have h := (claim_C1 ⟨[⟨"p1", "Demo", 0⟩], [⟨"f1", "p1", "old.txt", "o", 1⟩]⟩
        "p1" (fun i => String.append "n" (toString i)) 7
        (some [⟨JsVal.str "x.py", JsVal.null⟩])).2.2
      [⟨JsVal.str "x.py", JsVal.null⟩] rfl (by decide)
    exact h⟩

end OpenLovable
